import Mathlib

/-!
Verification of the argument parser in `src/argparse.ts` (class `ArgumentParser`).

The TypeScript source is shallowly embedded below.  JavaScript `any` values
flowing through the parser are modelled by `Scalar` (string / number / boolean)
and `JSValue` (a scalar or a flat array of scalars) — exactly the shapes the
parser itself produces and the shapes exercised by its test-suite.  JavaScript
numbers are modelled as `Int` via `jsNumber`, a model of the `Number()` builtin
restricted to (signed) decimal integer literals and the empty/whitespace string
(which `Number()` maps to 0); all other strings are treated as NaN.  Errors
thrown by the TypeScript code are modelled with `Except` over `ArgError`.
-/

/-- JS scalar values (`string | number | boolean`) produced by coercion. -/
inductive Scalar where
  | str (s : String)
  | num (n : Int)
  | bool (b : Bool)
deriving DecidableEq, Repr

/-- JS values stored in the parse-result object: a scalar, or a flat array of
scalars (the shapes the parser produces: coerced values, `[]`, pushed lists). -/
inductive JSValue where
  | scalar (s : Scalar)
  | arr (l : List Scalar)
deriving DecidableEq, Repr

/-- JS `toString()` on a scalar: numbers print in decimal, booleans as the
words `true` / `false`, strings unchanged. -/
def jsToString : Scalar → String
  | .str s => s
  | .num n => toString n
  | .bool b => if b then "true" else "false"

/-- JS truthiness of a modelled value (`""`, `0`, `false` are falsy; arrays,
including `[]`, are truthy). -/
def jsTruthy : JSValue → Bool
  | .scalar (.str s) => s ≠ ""
  | .scalar (.num n) => n ≠ 0
  | .scalar (.bool b) => b
  | .arr _ => true

/-- Decimal value of a digit list (most significant first). -/
def digitsToNat : List Char → Nat
  | [] => 0
  | c :: cs => (digitsToNat cs) + c.toNat.sub '0'.toNat * 10 ^ cs.length

/-- JS `\s` for the ASCII range (the tokenizer regex's whitespace class). -/
def jsWhitespace (c : Char) : Bool :=
  c = ' ' ∨ c = '\t' ∨ c = '\n' ∨ c = '\r' ∨ c = '\x0b' ∨ c = '\x0c'

/-- JS `trim()` (ASCII whitespace). -/
def jsTrim (s : String) : String :=
  String.mk (((s.toList.dropWhile jsWhitespace).reverse.dropWhile
    jsWhitespace).reverse)

/-- Model of the JS `Number()` builtin, restricted to signed decimal integer
literals: surrounding whitespace is trimmed, the empty (or all-whitespace)
string yields 0, an optional sign followed by decimal digits yields the
corresponding integer, and anything else is NaN (`none`).  (The real builtin
additionally accepts fractional, exponent, hex and `Infinity` forms, none of
which the claims exercise.) -/
def jsNumber (s : String) : Option Int :=
  let t := jsTrim s
  if t = "" then some 0
  else
    let (sign, ds) : Int × List Char :=
      match t.toList with
      | '-' :: rest => (-1, rest)
      | '+' :: rest => (1, rest)
      | l => (1, l)
    if ds ≠ [] ∧ ds.all Char.isDigit then some (sign * (digitsToNat ds : Int))
    else none

/-- A character usable in the unquoted run `[^\s"']+` of the tokenizer regex. -/
def plainChar (c : Char) : Bool :=
  ¬ jsWhitespace c ∧ c ≠ '"' ∧ c ≠ '\''

/-- JS `toUpperCase()` (ASCII). -/
def jsToUpper (s : String) : String := String.mk (s.toList.map Char.toUpper)

/-- JS `toLowerCase()` (ASCII). -/
def jsToLower (s : String) : String := String.mk (s.toList.map Char.toLower)

/-- Matching of the quoted-segment body `(\\q|[^q])*q` (for quote kind `q`)
after the opening quote, with the greedy-then-backtrack semantics of the JS
regex engine: the scan consumes `\q` pairs and non-`q` characters greedily and
closes at the first bare `q`; if the input ends first, the engine backtracks
into the last `\q` pair, reading its backslash as `[^q]` and closing at its
quote.  Returns the body characters and the rest after the closing quote. -/
def scanQ (q : Char) : List Char → Option (List Char × List Char)
  | [] => none
  | c :: cs =>
    if c = q then some ([], cs)
    else if c = '\\' then
      match cs with
      | [] => none
      | d :: cs2 =>
        if d = q then
          match scanQ q cs2 with
          | some (content, rest) => some (c :: d :: content, rest)
          | none => some ([c], cs2)
        else
          match scanQ q (d :: cs2) with
          | some (content, rest) => some (c :: content, rest)
          | none => none
    else
      match scanQ q cs with
      | some (content, rest) => some (c :: content, rest)
      | none => none

/-- One segment of the tokenizer regex `[^\s"']+|"(\\"|[^"])*"|'(\\'|[^'])*'`,
returning the matched text and the remaining input. -/
def matchSeg (cs : List Char) : Option (List Char × List Char) :=
  match cs with
  | [] => none
  | c :: rest =>
    if c = '"' ∨ c = '\'' then
      match scanQ c rest with
      | some (content, rest') => some (c :: content ++ [c], rest')
      | none => none
    else if jsWhitespace c then none
    else
      some ((c :: rest).takeWhile plainChar, (c :: rest).dropWhile plainChar)

/-- Zero or more further segments (the `+` of the tokenizer regex after the
first segment); `fuel` bounds the recursion (each segment is nonempty, so
`length + 1` fuel is never exhausted). -/
def matchSegs (fuel : Nat) (cs : List Char) : List Char × List Char :=
  match fuel with
  | 0 => ([], cs)
  | fuel + 1 =>
    match matchSeg cs with
    | none => ([], cs)
    | some (seg, rest) =>
      let (more, rest') := matchSegs fuel rest
      (seg ++ more, rest')

/-- One whole token (one match of the regex) starting exactly here, if any. -/
def matchToken (fuel : Nat) (cs : List Char) : Option (List Char × List Char) :=
  match matchSeg cs with
  | none => none
  | some (seg, rest) =>
    let (more, rest') := matchSegs fuel rest
    some (seg ++ more, rest')

/-- Successive matches of the token regex over the input (the semantics of
`argsString.match(regex)` with the global flag: positions where no match
starts are skipped). -/
def tokenizeLoop (fuel : Nat) (cs : List Char) : List (List Char) :=
  match fuel with
  | 0 => []
  | fuel + 1 =>
    match cs with
    | [] => []
    | c :: rest =>
      match matchToken fuel (c :: rest) with
      | some (tok, rest') => tok :: tokenizeLoop fuel rest'
      | none => tokenizeLoop fuel rest

/-- The `replace(/\\(["'])/g, '$1')` step: each backslash immediately followed
by a quote character is dropped, left to right, non-overlapping. -/
def unescapeQuotes : List Char → List Char
  | [] => []
  | '\\' :: c :: cs =>
    if c = '"' ∨ c = '\'' then c :: unescapeQuotes cs
    else '\\' :: unescapeQuotes (c :: cs)
  | c :: cs => c :: unescapeQuotes cs

/-- The per-token post-processing in `tokenize`: a token that starts and ends
with the same quote character has that pair sliced off and backslash-quote
pairs unescaped; otherwise it is returned verbatim. -/
def stripToken (t : List Char) : List Char :=
  if (t.head? = some '"' ∧ t.getLast? = some '"') ∨
     (t.head? = some '\'' ∧ t.getLast? = some '\'') then
    unescapeQuotes ((t.drop 1).dropLast)
  else t

/-- `tokenize` (src/argparse.ts:304-314). -/
def tokenize (argsString : String) : List String :=
  (tokenizeLoop (argsString.toList.length + 1) argsString.toList).map
    (fun t => String.mk (stripToken t))

/-- `type ArgumentType = 'string' | 'number' | 'boolean'`. -/
inductive ArgType where
  | str
  | num
  | bool
deriving DecidableEq, Repr

/-- `type NargsOption = number | '?' | '*' | '+'`. -/
inductive NargsOption where
  | count (n : Nat)
  | optQ
  | star
  | plus
deriving DecidableEq, Repr

/-- The errors thrown by the source (src/argparse.ts:1-41), by constructor
rather than by formatted message; `jsError` stands for host-level TypeErrors
(e.g. indexing an empty `flags` array), and `fuelExhausted` is a modelling
artifact of the bounded scan loop that no actual run reaches. -/
inductive ArgError where
  | argumentType (argName : String) (expectedType : String) (received : String)
  | unknownArgument (argName : String)
  | missingRequired (argName : String)
  | invalidChoice (argName : String) (value : Scalar) (choices : List Scalar)
  | invalidNargsCount (argName : String) (expected : Nat) (received : Nat)
  | invalidNargsAtLeastOne (argName : String) (received : Nat)
  | parserError (msg : String)
  | jsError (msg : String)
  | fuelExhausted
deriving DecidableEq, Repr

/-- `interface ArgumentOptions` after `addArgument` has merged in the
defaults: every field the parser reads is present.  `choices` entries are
restricted to scalars (the shapes the tests use). -/
structure ArgumentOptions where
  type : ArgType
  default : Option JSValue
  nargs : Option NargsOption
  choices : Option (List Scalar)
  required : Bool
  help : Option String
  metavar : String
  dest : String
  flags : List String
deriving DecidableEq, Repr

/-- The caller-supplied `Partial<ArgumentOptions>` of `addArgument`: `none`
means the field was not specified, so the default applies. -/
structure PartialOptions where
  type : Option ArgType := none
  default : Option JSValue := none
  nargs : Option NargsOption := none
  choices : Option (List Scalar) := none
  required : Option Bool := none
  help : Option String := none
  metavar : Option String := none
  dest : Option String := none
deriving DecidableEq, Repr

/-- The result object `parsedArgs : Record<string, any>`, as an
insertion-ordered association list with unique keys. -/
abbrev JSMap := List (String × JSValue)

/-- Property write `obj[k] = v`: overwrite in place if the key exists,
otherwise append. -/
def objSet (m : JSMap) (k : String) (v : JSValue) : JSMap :=
  if (List.any m (fun p => p.1 = k)) then
    List.map (fun p => if p.1 = k then (k, v) else p) m
  else m ++ [(k, v)]

/-- Property read `obj[k]` (`none` models `undefined`). -/
def objGet (m : JSMap) (k : String) : Option JSValue :=
  match m with
  | [] => none
  | (k', v) :: rest => if k = k' then some v else objGet rest k

/-- `Map.get` on the named-argument registry. -/
def mapGet (m : List (String × ArgumentOptions)) (k : String) :
    Option ArgumentOptions :=
  match m with
  | [] => none
  | (k', v) :: rest => if k = k' then some v else mapGet rest k

/-- `Map.set` on the named-argument registry: same insertion-order semantics
as `objSet`. -/
def mapSet (m : List (String × ArgumentOptions)) (k : String)
    (v : ArgumentOptions) : List (String × ArgumentOptions) :=
  if (List.any m (fun p => p.1 = k)) then
    List.map (fun p => if p.1 = k then (k, v) else p) m
  else m ++ [(k, v)]

/-- The parser instance's fields (src/argparse.ts:59-62): the registry
(`arguments`, `positionalArgs`) plus the per-call mutable fields
(`parsedArgs`, `currentPositionalIndex`). -/
structure ParserState where
  arguments : List (String × ArgumentOptions) := []
  positionalArgs : List ArgumentOptions := []
  parsedArgs : JSMap := []
  currentPositionalIndex : Nat := 0
deriving DecidableEq, Repr

/-- JS `x || y` on strings (empty string is falsy). -/
def jsOr (s fallback : String) : String :=
  if s = "" then fallback else s

/-- JS `s.slice(a, b)` for nonnegative bounds. -/
def strSlice (s : String) (a b : Nat) : String :=
  String.mk ((s.toList.take b).drop a)

/-- JS `s.slice(a)` for a nonnegative bound. -/
def strSliceFrom (s : String) (a : Nat) : String :=
  String.mk (s.toList.drop a)

/-- JS `s.startsWith(p)`. -/
def strStartsWith (s pre : String) : Bool :=
  List.isPrefixOf pre.toList s.toList

/-- JS `s.endsWith(p)`. -/
def strEndsWith (s suf : String) : Bool :=
  List.isSuffixOf suf.toList s.toList

/-- Scan helper for `indexOfChar`. -/
def indexOfAux (c : Char) : List Char → Nat → Option Nat
  | [], _ => none
  | x :: xs, i => if x = c then some i else indexOfAux c xs (i + 1)

/-- JS `s.indexOf(c)`, as an option instead of `-1`. -/
def indexOfChar (s : String) (c : Char) : Option Nat :=
  indexOfAux c s.toList 0

/-- `s.replace(/^-+/, '')`: drop the leading run of dashes. -/
def stripLeadingDashes (s : String) : String :=
  String.mk (s.toList.dropWhile (fun c => c = '-'))

/-- The quote-stripping applied to an `=`-attached value in `parseLongOption`
(src/argparse.ts:157-160). -/
def stripWrapped (v : String) : String :=
  if (strStartsWith v "\"" ∧ strEndsWith v "\"") ∨
     (strStartsWith v "'" ∧ strEndsWith v "'") then
    String.mk ((v.toList.drop 1).dropLast)
  else v

/-- `validateArgumentOptions` (src/argparse.ts:335-349).  The invalid-type,
invalid-nargs and non-array-choices checks are unrepresentable in the typed
model (the corresponding fields are already well-typed); the live check is
the `required`-with-`default` rejection. -/
def validateArgumentOptions (options : ArgumentOptions) : Except ArgError Unit :=
  if options.required ∧ options.default ≠ none then
    .error (.parserError "Cannot set both required and default for an argument")
  else .ok ()

/-- The merged options object built inside `addArgument`
(src/argparse.ts:71-87), including the boolean-implies-`'?'`-nargs rule. -/
def buildOptions (flags : List String) (options : PartialOptions)
    (name : String) (isOptional : Bool) : ArgumentOptions :=
  let full : ArgumentOptions :=
    { type := options.type.getD .str
      default := options.default
      nargs := options.nargs
      choices := options.choices
      required := options.required.getD (!isOptional)
      help := options.help
      metavar := options.metavar.getD (jsToUpper name)
      dest := options.dest.getD name
      flags := flags }
  if full.type = .bool ∧ full.nargs = none then { full with nargs := some .optQ }
  else full

/-- `addArgument` (src/argparse.ts:67-97). -/
def addArgument (st : ParserState) (flags : List String)
    (options : PartialOptions) : Except ArgError ParserState :=
  match flags.getLast? with
  | none => .error (.jsError "flags is empty")
  | some lastFlag =>
    let name := stripLeadingDashes lastFlag
    let isOptional := strStartsWith (flags.headD "") "-"
    let fullOptions := buildOptions flags options name isOptional
    match validateArgumentOptions fullOptions with
    | .error e => .error e
    | .ok _ =>
      if isOptional then
        .ok { st with arguments := mapSet st.arguments name fullOptions }
      else
        .ok { st with positionalArgs := st.positionalArgs ++ [fullOptions] }

/-- The value-collection loop body of `collectValues` (src/argparse.ts:224-228):
`len` is the number of values collected so far, `count` the seed count. -/
def collectLoop (nargs : NargsOption) (count : Nat) :
    List String → Nat → List String
  | [], _ => []
  | arg :: rest, len =>
    if strStartsWith arg "-" ∧ (count ≤ len ∨ nargs = .optQ) then []
    else
      arg ::
        (if nargs ≠ .star ∧ nargs ≠ .plus ∧ len + 1 = count then []
         else collectLoop nargs count rest (len + 1))

/-- `collectValues` (src/argparse.ts:217-239). -/
def collectValues (value : Option String) (index : Nat) (args : List String)
    (nargs : NargsOption) : Except ArgError (List String) :=
  match value with
  | some v => .ok [v]
  | none =>
    let remaining := args.drop (index + 1)
    let count : Nat :=
      match nargs with
      | .count n => n
      | .plus => 1
      | .optQ => 1
      | .star => 0
    let values := collectLoop nargs count remaining 0
    match nargs with
    | .count n =>
      if values.length ≠ n then
        .error (.invalidNargsCount (args.getD index "undefined") n values.length)
      else .ok values
    | .plus =>
      if values.length = 0 then
        .error (.invalidNargsAtLeastOne (args.getD index "undefined") 0)
      else .ok values
    | .optQ => .ok values
    | .star => .ok values

/-- The type-coercion `switch` of `parseValue` (src/argparse.ts:248-260). -/
def coerceValue (type : ArgType) (value : String) (name : String) :
    Except ArgError Scalar :=
  match type with
  | .num =>
    match jsNumber value with
    | some n => .ok (.num n)
    | none => .error (.argumentType name "number" value)
  | .bool =>
    if jsToLower value = "true" then .ok (.bool true)
    else if jsToLower value = "false" then .ok (.bool false)
    else .error (.argumentType name "boolean" value)
  | .str => .ok (.str value)

/-- `parseValue` (src/argparse.ts:246-273): coerce, then check `choices` by
string representation, replacing a match by the declared choice instance. -/
def parseValue (value : String) (option : ArgumentOptions) (name : String) :
    Except ArgError Scalar :=
  match coerceValue option.type value name with
  | .error e => .error e
  | .ok parsed =>
    match option.choices with
    | none => .ok parsed
    | some choices =>
      match choices.find? (fun choice => jsToString choice = jsToString parsed) with
      | some matchingChoice => .ok matchingChoice
      | none => .error (.invalidChoice name parsed choices)

/-- The element-wise map of `parseValues`, left to right, first error
propagating (the semantics of `values.map(...)` with exceptions). -/
def parseValueList (values : List String) (option : ArgumentOptions)
    (name : String) : Except ArgError (List Scalar) :=
  match values with
  | [] => .ok []
  | v :: rest =>
    match parseValue v option name with
    | .error e => .error e
    | .ok p =>
      match parseValueList rest option name with
      | .error e => .error e
      | .ok ps => .ok (p :: ps)

/-- `parseValues` (src/argparse.ts:241-244): a single parsed value collapses
to a scalar, any other length yields an array. -/
def parseValues (values : List String) (option : ArgumentOptions)
    (name : String) : Except ArgError JSValue :=
  match parseValueList values option name with
  | .error e => .error e
  | .ok [p] => .ok (.scalar p)
  | .ok ps => .ok (.arr ps)

/-- The code of `handleOption` after the boolean block (src/argparse.ts:208-214),
reached by fall-through; `values`, `nargs` and `dest` were computed before. -/
def handleOptionRest (name : String) (option : ArgumentOptions)
    (value : Option String) (index : Nat) (values : List String)
    (nargs : NargsOption) (dest : String) (pmap : JSMap) :
    Except ArgError (JSMap × Nat) :=
  if values.length > 0 then
    match parseValues values option name with
    | .error e => .error e
    | .ok v =>
      .ok (objSet pmap dest v, index + (if value = none then values.length else 0))
  else if nargs = .star then
    .ok (objSet pmap dest (.arr []),
      index + (if value = none then values.length else 0))
  else
    .ok (pmap, index + (if value = none then values.length else 0))

/-- `handleOption` (src/argparse.ts:189-215).  Note the boolean block: a
successful parse assigns and then falls through to the general block (which
re-parses, identically); an `ArgumentTypeError` is caught and degrades to
presence-only `true` with the index unchanged; any other error is swallowed
by the catch but re-raised by the fall-through's re-parse. -/
def handleOption (name : String) (option : ArgumentOptions)
    (value : Option String) (index : Nat) (args : List String) (pmap : JSMap) :
    Except ArgError (JSMap × Nat) :=
  let dest := jsOr option.dest name
  let nargs := option.nargs.getD (.count 1)
  match collectValues value index args nargs with
  | .error e => .error e
  | .ok values =>
    if option.type = .bool then
      if values.length = 0 then
        .ok (objSet pmap dest (.scalar (.bool true)), index)
      else
        match parseValues values option name with
        | .ok v =>
          handleOptionRest name option value index values nargs dest
            (objSet pmap dest v)
        | .error (.argumentType _ _ _) =>
          .ok (objSet pmap dest (.scalar (.bool true)), index)
        | .error _ =>
          handleOptionRest name option value index values nargs dest pmap
    else
      handleOptionRest name option value index values nargs dest pmap

/-- The per-character loop of `parseShortOption` (src/argparse.ts:177-185). -/
def shortOptLoop (argsMap : List (String × ArgumentOptions))
    (args : List String) :
    List Char → JSMap → Nat → Except ArgError (JSMap × Nat)
  | [], pmap, lastIndex => .ok (pmap, lastIndex)
  | c :: rest, pmap, lastIndex =>
    match argsMap.find? (fun p => p.2.flags.contains ("-" ++ c.toString)) with
    | none => .error (.unknownArgument ("-" ++ c.toString))
    | some (nm, opt) =>
      match handleOption nm opt none lastIndex args pmap with
      | .error e => .error e
      | .ok (pmap', idx') => shortOptLoop argsMap args rest pmap' idx'

/-- `parseShortOption` (src/argparse.ts:174-187). -/
def parseShortOption (argsMap : List (String × ArgumentOptions)) (arg : String)
    (index : Nat) (args : List String) (pmap : JSMap) :
    Except ArgError (JSMap × Nat) :=
  shortOptLoop argsMap args (strSliceFrom arg 1).toList pmap index

/-- `parseLongOption` (src/argparse.ts:150-172). -/
def parseLongOption (argsMap : List (String × ArgumentOptions)) (arg : String)
    (index : Nat) (args : List String) (pmap : JSMap) :
    Except ArgError (JSMap × Nat) :=
  let nv : String × Option String :=
    match indexOfChar arg '=' with
    | some equalIndex =>
      (strSlice arg 2 equalIndex,
        some (String.mk (unescapeQuotes
          (stripWrapped (strSliceFrom arg (equalIndex + 1))).toList)))
    | none => (strSliceFrom arg 2, none)
  match mapGet argsMap nv.1 with
  | none => .error (.unknownArgument arg)
  | some option => handleOption nv.1 option nv.2 index args pmap

/-- `parsePositional` (src/argparse.ts:275-302). -/
def parsePositional (positionals : List ArgumentOptions) (arg : String)
    (pmap : JSMap) (cursor : Nat) : Except ArgError (JSMap × Nat) :=
  let retarget : Except ArgError Nat :=
    if positionals.length ≤ cursor then
      match positionals.getLast? with
      | some lastOption =>
        if lastOption.nargs = some .star ∨ lastOption.nargs = some .plus then
          .ok (positionals.length - 1)
        else .error (.unknownArgument arg)
      | none => .error (.unknownArgument arg)
    else .ok cursor
  match retarget with
  | .error e => .error e
  | .ok cursor =>
    match positionals.get? cursor with
    | none => .error (.jsError "positional index out of range")
    | some option =>
      let dest := jsOr option.dest (option.flags.headD "undefined")
      match parseValue arg option dest with
      | .error e => .error e
      | .ok parsedValue =>
        match option.nargs with
        | none => .ok (objSet pmap dest (.scalar parsedValue), cursor + 1)
        | some nargs =>
          let pmap :=
            match objGet pmap dest with
            | some v => if jsTruthy v then pmap else objSet pmap dest (.arr [])
            | none => objSet pmap dest (.arr [])
          match objGet pmap dest with
          | some (.arr l) =>
            let pushed := l ++ [parsedValue]
            let pmap := objSet pmap dest (.arr pushed)
            let cursor' :=
              match nargs with
              | .count n => if pushed.length = n then cursor + 1 else cursor
              | _ => cursor
            .ok (pmap, cursor')
          | _ => .error (.jsError "push on a non-array value")

/-- `parseArg` (src/argparse.ts:139-148): dispatch on the token shape.
Returns the updated result object, positional cursor and token index. -/
def parseArg (argsMap : List (String × ArgumentOptions))
    (positionals : List ArgumentOptions) (arg : String) (index : Nat)
    (args : List String) (pmap : JSMap) (cursor : Nat) :
    Except ArgError (JSMap × Nat × Nat) :=
  if strStartsWith arg "--" then
    match parseLongOption argsMap arg index args pmap with
    | .error e => .error e
    | .ok (pmap', index') => .ok (pmap', cursor, index')
  else if strStartsWith arg "-" then
    match parseShortOption argsMap arg index args pmap with
    | .error e => .error e
    | .ok (pmap', index') => .ok (pmap', cursor, index')
  else
    match parsePositional positionals arg pmap cursor with
    | .error e => .error e
    | .ok (pmap', cursor') => .ok (pmap', cursor', index)

/-- The `for (let i = 0; i < args.length; i++) i = this.parseArg(...)` loop of
`parseArgs` (src/argparse.ts:103-105).  `fuel` bounds the iteration count;
since `parseArg` never decreases the index, `args.length + 1` fuel always
suffices and `fuelExhausted` is unreachable from `parseArgs`. -/
def scanLoop (argsMap : List (String × ArgumentOptions))
    (positionals : List ArgumentOptions) :
    Nat → List String → Nat → JSMap → Nat → Except ArgError (JSMap × Nat)
  | 0, _, _, _, _ => .error .fuelExhausted
  | fuel + 1, args, i, pmap, cursor =>
    match args.get? i with
    | none => .ok (pmap, cursor)
    | some arg =>
      match parseArg argsMap positionals arg i args pmap cursor with
      | .error e => .error e
      | .ok (pmap', cursor', i') =>
        scanLoop argsMap positionals fuel args (i' + 1) pmap' cursor'

/-- The named-argument half of `setDefaults` (src/argparse.ts:317-326). -/
def setDefaultsNamed : List (String × ArgumentOptions) → JSMap → JSMap
  | [], pmap => pmap
  | (name, opt) :: rest, pmap =>
    let dest := jsOr opt.dest name
    let pmap :=
      if objGet pmap dest = none then
        match opt.default with
        | some d => objSet pmap dest d
        | none =>
          if opt.nargs = some .star then objSet pmap dest (.arr []) else pmap
      else pmap
    setDefaultsNamed rest pmap

/-- The positional half of `setDefaults` (src/argparse.ts:327-332). -/
def setDefaultsPositional : List ArgumentOptions → JSMap → JSMap
  | [], pmap => pmap
  | opt :: rest, pmap =>
    let dest := jsOr opt.dest (opt.flags.headD "undefined")
    let pmap :=
      match opt.default with
      | some d => if objGet pmap dest = none then objSet pmap dest d else pmap
      | none => pmap
    setDefaultsPositional rest pmap

/-- `setDefaults` (src/argparse.ts:316-333). -/
def setDefaults (argsMap : List (String × ArgumentOptions))
    (positionals : List ArgumentOptions) (pmap : JSMap) : JSMap :=
  setDefaultsPositional positionals (setDefaultsNamed argsMap pmap)

/-- The named-argument half of `validateRequired` (src/argparse.ts:352-357). -/
def validateRequiredNamed :
    List (String × ArgumentOptions) → JSMap → Except ArgError Unit
  | [], _ => .ok ()
  | (name, opt) :: rest, pmap =>
    if opt.required ∧ objGet pmap (jsOr opt.dest name) = none then
      .error (.missingRequired name)
    else validateRequiredNamed rest pmap

/-- The positional half of `validateRequired` (src/argparse.ts:358-363). -/
def validateRequiredPositional :
    List ArgumentOptions → JSMap → Except ArgError Unit
  | [], _ => .ok ()
  | opt :: rest, pmap =>
    if opt.required ∧
        objGet pmap (jsOr opt.dest (opt.flags.headD "undefined")) = none then
      .error (.missingRequired (opt.flags.headD "undefined"))
    else validateRequiredPositional rest pmap

/-- `validateRequired` (src/argparse.ts:351-364). -/
def validateRequired (argsMap : List (String × ArgumentOptions))
    (positionals : List ArgumentOptions) (pmap : JSMap) :
    Except ArgError Unit :=
  match validateRequiredNamed argsMap pmap with
  | .error e => .error e
  | .ok _ => validateRequiredPositional positionals pmap

/-- The body of `parseArgs` after tokenization (src/argparse.ts:100-110): the
result object and positional cursor start from their reset values `{}`/`0`. -/
def parseArgsFromTokens (argsMap : List (String × ArgumentOptions))
    (positionals : List ArgumentOptions) (tokens : List String) :
    Except ArgError JSMap :=
  match scanLoop argsMap positionals (tokens.length + 1) tokens 0 [] 0 with
  | .error e => .error e
  | .ok (pmap, _) =>
    let pmap := setDefaults argsMap positionals pmap
    match validateRequired argsMap positionals pmap with
    | .error e => .error e
    | .ok _ => .ok pmap

/-- `parseArgs` (src/argparse.ts:99-111).  The per-call fields `parsedArgs`
and `currentPositionalIndex` are reset at entry (lines 100-101), which is why
only the registry fields of the state are consulted. -/
def parseArgs (st : ParserState) (argsString : String) : Except ArgError JSMap :=
  parseArgsFromTokens st.arguments st.positionalArgs (tokenize argsString)

/-! Concrete parser instances used by the claims, each tied below to the
`addArgument` call that produces it. -/

/-- `--nums`, numeric, fixed arity `N` (the merged options object). -/
def numsOpts (N : Nat) : ArgumentOptions :=
  { type := .num, default := none, nargs := some (.count N), choices := none,
    required := false, help := none, metavar := "NUMS", dest := "nums",
    flags := ["--nums"] }

/-- Parser with the single optional argument `--nums` of arity `N`. -/
def numsParser (N : Nat) : ParserState := { arguments := [("nums", numsOpts N)] }

/-- `--names`, string-typed, one-or-more arity. -/
def plusOpts : ArgumentOptions :=
  { type := .str, default := none, nargs := some .plus, choices := none,
    required := false, help := none, metavar := "NAMES", dest := "names",
    flags := ["--names"] }

/-- Parser with the single optional argument `--names` of arity `'+'`. -/
def plusParser : ParserState := { arguments := [("names", plusOpts)] }

/-- `-a`, boolean (so `addArgument` gives it `'?'` arity). -/
def aOpts : ArgumentOptions :=
  { type := .bool, default := none, nargs := some .optQ, choices := none,
    required := false, help := none, metavar := "A", dest := "a",
    flags := ["-a"] }

/-- `-b`, string-typed, default arity. -/
def bOpts : ArgumentOptions :=
  { type := .str, default := none, nargs := none, choices := none,
    required := false, help := none, metavar := "B", dest := "b",
    flags := ["-b"] }

/-- Parser with short flags `-a` (boolean) and `-b` (string). -/
def abParser : ParserState := { arguments := [("a", aOpts), ("b", bOpts)] }

/-- Positional `pos`, string-typed, required (the positional default). -/
def posOpts : ArgumentOptions :=
  { type := .str, default := none, nargs := none, choices := none,
    required := true, help := none, metavar := "POS", dest := "pos",
    flags := ["pos"] }

/-- Parser with the single positional `pos`. -/
def posParser : ParserState := { positionalArgs := [posOpts] }

/-- Parser with `-a` (boolean) and the required positional `pos`. -/
def abPosParser : ParserState :=
  { arguments := [("a", aOpts)], positionalArgs := [posOpts] }

/-- `--port`, numeric, with choices `[8080, 8081]`. -/
def portOpts : ArgumentOptions :=
  { type := .num, default := none, nargs := none,
    choices := some [.num 8080, .num 8081],
    required := false, help := none, metavar := "PORT", dest := "port",
    flags := ["--port"] }

/-- Parser with the single optional argument `--port`. -/
def portParser : ParserState := { arguments := [("port", portOpts)] }

/-- `--value`, string-typed, with mixed-type choices `['a', 1, true]`. -/
def choiceOpts : ArgumentOptions :=
  { type := .str, default := none, nargs := none,
    choices := some [.str "a", .num 1, .bool true],
    required := false, help := none, metavar := "VALUE", dest := "value",
    flags := ["--value"] }

/-- Parser with the single optional argument `--value`. -/
def choiceParser : ParserState := { arguments := [("value", choiceOpts)] }

/-- `--flag`, boolean (hence `'?'` arity). -/
def flagOpts : ArgumentOptions :=
  { type := .bool, default := none, nargs := some .optQ, choices := none,
    required := false, help := none, metavar := "FLAG", dest := "flag",
    flags := ["--flag"] }

/-- Parser with the single boolean optional argument `--flag`. -/
def flagParser : ParserState := { arguments := [("flag", flagOpts)] }

/-- `--name`, string-typed, default arity. -/
def nameOpts : ArgumentOptions :=
  { type := .str, default := none, nargs := none, choices := none,
    required := false, help := none, metavar := "NAME", dest := "name",
    flags := ["--name"] }

/-- Parser with the single optional argument `--name`. -/
def nameParser : ParserState := { arguments := [("name", nameOpts)] }

/-- Positional `files`, one-or-more arity. -/
def filesPosOpts : ArgumentOptions :=
  { type := .str, default := none, nargs := some .plus, choices := none,
    required := true, help := none, metavar := "FILES", dest := "files",
    flags := ["files"] }

/-- Parser with the single positional `files` of arity `'+'`. -/
def filesPosParser : ParserState := { positionalArgs := [filesPosOpts] }

theorem reg_numsParser (N : Nat) :
    addArgument {} ["--nums"] { type := some .num, nargs := some (.count N) } =
      .ok (numsParser N) := rfl

theorem reg_plusParser :
    addArgument {} ["--names"] { nargs := some .plus } = .ok plusParser := rfl

theorem reg_abParser :
    (addArgument {} ["-a"] { type := some .bool }).bind
      (fun st => addArgument st ["-b"] {}) = .ok abParser := rfl

theorem reg_posParser : addArgument {} ["pos"] {} = .ok posParser := rfl

theorem reg_abPosParser :
    (addArgument {} ["-a"] { type := some .bool }).bind
      (fun st => addArgument st ["pos"] {}) = .ok abPosParser := rfl

theorem reg_portParser :
    addArgument {} ["--port"]
      { type := some .num, choices := some [.num 8080, .num 8081] } =
      .ok portParser := rfl

theorem reg_choiceParser :
    addArgument {} ["--value"]
      { choices := some [.str "a", .num 1, .bool true] } =
      .ok choiceParser := rfl

theorem reg_flagParser :
    addArgument {} ["--flag"] { type := some .bool } = .ok flagParser := rfl

theorem reg_nameParser :
    addArgument {} ["--name"] {} = .ok nameParser := rfl

theorem reg_filesPosParser :
    addArgument {} ["files"] { nargs := some .plus } = .ok filesPosParser := rfl

/-! General lemmas about the embedded parser. -/

theorem collectLoop_count_all (vs : List String) : ∀ (len N : Nat),
    len + vs.length ≤ N → collectLoop (.count N) N vs len = vs := by
  induction vs with
  | nil => intro len N _; rfl
  | cons a rest ih =>
    intro len N h
    simp only [List.length_cons] at h
    simp only [collectLoop]
    rw [if_neg (by simp; omega)]
    by_cases hc : len + 1 = N
    · have hrest : rest = [] := List.length_eq_zero.mp (by omega)
      subst hrest
      simp [hc]
    · rw [if_neg (by simp [hc])]
      rw [ih (len + 1) N (by omega)]

theorem parseValueList_num (opt : ArgumentOptions) (name : String)
    (hty : opt.type = .num) (hch : opt.choices = none) :
    ∀ (vs : List String) (ns : List Int), vs.map jsNumber = ns.map some →
    parseValueList vs opt name = .ok (ns.map .num) := by
  intro vs
  induction vs with
  | nil =>
    intro ns h
    have hn : ns = [] := by
      cases ns with
      | nil => rfl
      | cons n t => simp at h
    subst hn; rfl
  | cons a rest ih =>
    intro ns h
    cases ns with
    | nil => simp at h
    | cons n t =>
      simp only [List.map_cons, List.cons.injEq] at h
      simp only [parseValueList, parseValue, coerceValue, hty, hch, h.1]
      rw [ih t h.2]
      rfl

theorem numsParser_exact (N : Nat) (vs : List String) (ns : List Int)
    (hlen : vs.length = N) (h2 : 2 ≤ N)
    (hns : vs.map jsNumber = ns.map some) :
    parseArgsFromTokens (numsParser N).arguments (numsParser N).positionalArgs
      ("--nums" :: vs) = .ok [("nums", .arr (ns.map .num))] := by
  have hnslen : ns.length = N := by
    have := congrArg List.length hns
    simpa [hlen] using this.symm
  have hcoll : collectValues none 0 ("--nums" :: vs) (.count N) = .ok vs := by
    simp only [collectValues, List.drop_succ_cons, List.drop_zero]
    rw [collectLoop_count_all vs 0 N (by omega)]
    simp [hlen]
  have hpl : parseValueList vs (numsOpts N) "nums" = .ok (ns.map .num) :=
    parseValueList_num _ _ rfl rfl vs ns hns
  have hpv : parseValues vs (numsOpts N) "nums" = .ok (.arr (ns.map .num)) := by
    simp only [parseValues, hpl]
    cases ns with
    | nil => simp at hnslen; omega
    | cons n t =>
      cases t with
      | nil => simp at hnslen; omega
      | cons m u => rfl
  simp only [numsOpts] at hpl hpv
  have hho : handleOption "nums" (numsOpts N) none 0 ("--nums" :: vs) [] =
      .ok ([("nums", .arr (ns.map .num))], vs.length) := by
    simp only [handleOption, numsOpts, jsOr, Option.getD_some]
    rw [if_neg (by simp)]
    simp only [hcoll]
    rw [if_neg (by simp : ¬ (ArgType.num = ArgType.bool))]
    simp only [handleOptionRest]
    rw [if_pos (by omega : vs.length > 0)]
    simp only [hpv]
    simp [objSet]
  have hpa : parseArg (numsParser N).arguments (numsParser N).positionalArgs
      "--nums" 0 ("--nums" :: vs) [] 0 =
      .ok ([("nums", .arr (ns.map .num))], 0, vs.length) := by
    simp only [parseArg]
    rw [if_pos (show strStartsWith "--nums" "--" = true from by decide)]
    simp only [parseLongOption]
    rw [show indexOfChar "--nums" '=' = none from by decide]
    simp only [numsParser]
    rw [show strSliceFrom "--nums" 2 = "nums" from by decide]
    simp only [mapGet, eq_self_iff_true, if_true]
    rw [hho]
  have hscan : scanLoop (numsParser N).arguments (numsParser N).positionalArgs
      (vs.length + 1 + 1) ("--nums" :: vs) 0 [] 0 =
      .ok ([("nums", .arr (ns.map .num))], 0) := by
    simp only [scanLoop, List.get?]
    rw [hpa]
    simp only [scanLoop]
    rw [show vs.get? vs.length = none from List.get?_eq_none.mpr (by simp)]
  simp only [parseArgsFromTokens, List.length_cons]
  rw [hscan]
  have hsd : setDefaults (numsParser N).arguments (numsParser N).positionalArgs
      [("nums", .arr (ns.map .num))] = [("nums", .arr (ns.map .num))] := by
    simp [setDefaults, setDefaultsNamed, setDefaultsPositional, objGet,
      numsParser, numsOpts, jsOr]
  have hvr : validateRequired (numsParser N).arguments (numsParser N).positionalArgs
      [("nums", .arr (ns.map .num))] = .ok () := by
    simp [validateRequired, validateRequiredNamed, validateRequiredPositional,
      numsParser, numsOpts]
  simp only [hsd, hvr]

theorem numsParser_fewer (N : Nat) (vs : List String) (hlen : vs.length < N) :
    parseArgsFromTokens (numsParser N).arguments (numsParser N).positionalArgs
      ("--nums" :: vs) =
      .error (.invalidNargsCount "--nums" N vs.length) := by
  have hcoll : collectValues none 0 ("--nums" :: vs) (.count N) =
      .error (.invalidNargsCount "--nums" N vs.length) := by
    simp only [collectValues, List.drop_succ_cons, List.drop_zero]
    rw [collectLoop_count_all vs 0 N (by omega)]
    rw [if_pos (by omega : vs.length ≠ N)]
    simp [List.getD]
  have hho : handleOption "nums" (numsOpts N) none 0 ("--nums" :: vs) [] =
      .error (.invalidNargsCount "--nums" N vs.length) := by
    simp only [handleOption, numsOpts, jsOr, Option.getD_some]
    rw [if_neg (by simp)]
    simp only [hcoll]
  have hpa : parseArg (numsParser N).arguments (numsParser N).positionalArgs
      "--nums" 0 ("--nums" :: vs) [] 0 =
      .error (.invalidNargsCount "--nums" N vs.length) := by
    simp only [parseArg]
    rw [if_pos (show strStartsWith "--nums" "--" = true from by decide)]
    simp only [parseLongOption]
    rw [show indexOfChar "--nums" '=' = none from by decide]
    simp only [numsParser]
    rw [show strSliceFrom "--nums" 2 = "nums" from by decide]
    simp only [mapGet, eq_self_iff_true, if_true]
    rw [hho]
  simp only [parseArgsFromTokens, List.length_cons, scanLoop, List.get?]
  rw [hpa]

theorem collectLoop_plus_all (vs : List String)
    (hnf : ∀ v ∈ vs, strStartsWith v "-" = false) : ∀ (len : Nat),
    collectLoop .plus 1 vs len = vs := by
  induction vs with
  | nil => intro _; rfl
  | cons a rest ih =>
    intro len
    simp only [collectLoop]
    rw [if_neg (by simp [hnf a (by simp)])]
    have ih2 := ih (fun v hv => hnf v (by simp [hv]))
    simp only [reduceCtorEq, ne_eq, not_true_eq_false, false_and, and_false,
      if_false]
    rw [ih2 (len + 1)]

theorem parseValueList_str (opt : ArgumentOptions) (name : String)
    (hty : opt.type = .str) (hch : opt.choices = none) :
    ∀ (vs : List String), parseValueList vs opt name = .ok (vs.map .str) := by
  intro vs
  induction vs with
  | nil => rfl
  | cons a rest ih =>
    simp only [parseValueList, parseValue, coerceValue, hty, hch, List.map_cons]
    rw [ih]

theorem plusParser_all (vs : List String)
    (hnf : ∀ v ∈ vs, strStartsWith v "-" = false) (h2 : 2 ≤ vs.length) :
    parseArgsFromTokens plusParser.arguments plusParser.positionalArgs
      ("--names" :: vs) = .ok [("names", .arr (vs.map .str))] := by
  have hcoll : collectValues none 0 ("--names" :: vs) .plus = .ok vs := by
    simp only [collectValues, List.drop_succ_cons, List.drop_zero]
    rw [collectLoop_plus_all vs hnf 0]
    rw [if_neg (by omega : ¬ (vs.length = 0))]
  have hpl : parseValueList vs plusOpts "names" = .ok (vs.map .str) :=
    parseValueList_str _ _ rfl rfl vs
  have hpv : parseValues vs plusOpts "names" = .ok (.arr (vs.map .str)) := by
    simp only [parseValues, hpl]
    cases vs with
    | nil => simp at h2
    | cons a t =>
      cases t with
      | nil => simp at h2
      | cons b u => rfl
  simp only [plusOpts] at hpl hpv
  have hho : handleOption "names" plusOpts none 0 ("--names" :: vs) [] =
      .ok ([("names", .arr (vs.map .str))], vs.length) := by
    simp only [handleOption, plusOpts, jsOr, Option.getD_some]
    rw [if_neg (by simp)]
    simp only [hcoll]
    rw [if_neg (by simp : ¬ (ArgType.str = ArgType.bool))]
    simp only [handleOptionRest]
    rw [if_pos (by omega : vs.length > 0)]
    simp only [hpv]
    simp [objSet]
  have hpa : parseArg plusParser.arguments plusParser.positionalArgs
      "--names" 0 ("--names" :: vs) [] 0 =
      .ok ([("names", .arr (vs.map .str))], 0, vs.length) := by
    simp only [parseArg]
    rw [if_pos (show strStartsWith "--names" "--" = true from by decide)]
    simp only [parseLongOption]
    rw [show indexOfChar "--names" '=' = none from by decide]
    simp only [plusParser]
    rw [show strSliceFrom "--names" 2 = "names" from by decide]
    simp only [mapGet, eq_self_iff_true, if_true]
    rw [hho]
  have hscan : scanLoop plusParser.arguments plusParser.positionalArgs
      (vs.length + 1 + 1) ("--names" :: vs) 0 [] 0 =
      .ok ([("names", .arr (vs.map .str))], 0) := by
    simp only [scanLoop, List.get?]
    rw [hpa]
    simp only [scanLoop]
    rw [show vs.get? vs.length = none from List.get?_eq_none.mpr (by simp)]
  simp only [parseArgsFromTokens, List.length_cons]
  rw [hscan]
  have hsd : setDefaults plusParser.arguments plusParser.positionalArgs
      [("names", .arr (vs.map .str))] = [("names", .arr (vs.map .str))] := by
    simp [setDefaults, setDefaultsNamed, setDefaultsPositional, objGet,
      plusParser, plusOpts, jsOr]
  have hvr : validateRequired plusParser.arguments plusParser.positionalArgs
      [("names", .arr (vs.map .str))] = .ok () := by
    simp [validateRequired, validateRequiredNamed, validateRequiredPositional,
      plusParser, plusOpts]
  simp only [hsd, hvr]

theorem parseArgs_ignores_callLocal (st : ParserState) (s : String) (pm : JSMap) (cur : Nat) :
    parseArgs { st with parsedArgs := pm, currentPositionalIndex := cur } s =
      parseArgs st s := rfl

theorem parseArg_bareDash (argsMap : List (String × ArgumentOptions))
    (positionals : List ArgumentOptions) (i : Nat) (args : List String)
    (pmap : JSMap) (cursor : Nat) :
    parseArg argsMap positionals "-" i args pmap cursor =
      .ok (pmap, cursor, i) := rfl

theorem parseValue_choices_spec (option : ArgumentOptions) (name v : String) (parsed : Scalar)
    (cs : List Scalar) (hch : option.choices = some cs)
    (hco : coerceValue option.type v name = .ok parsed) :
    parseValue v option name =
      (match cs.find? (fun c => jsToString c = jsToString parsed) with
       | some c => .ok c
       | none => .error (.invalidChoice name parsed cs)) := by
  simp only [parseValue, hco, hch]

theorem shortBool_no_consume (t : String) (pmap : JSMap) (cursor : Nat)
    (h1 : jsToLower t ≠ "true") (h2 : jsToLower t ≠ "false") :
    parseArg abParser.arguments abParser.positionalArgs "-a" 0 ["-a", t]
      pmap cursor = .ok (objSet pmap "a" (.scalar (.bool true)), cursor, 0) := by
  simp only [parseArg]
  rw [if_neg (show ¬ (strStartsWith "-a" "--" = true) from by decide)]
  rw [if_pos (show strStartsWith "-a" "-" = true from by decide)]
  simp only [parseShortOption, abParser]
  rw [show (strSliceFrom "-a" 1).toList = ['a'] from by decide]
  simp only [shortOptLoop, List.find?]
  rw [show aOpts.flags.contains ("-" ++ 'a'.toString) = true from by decide]
  simp only [handleOption, aOpts, jsOr, Option.getD_some]
  rw [if_neg (by simp : ¬ (("a" : String) = ""))]
  by_cases hb : strStartsWith t "-" = true
  · have hcoll : collectValues none 0 ["-a", t] .optQ = .ok [] := by
      simp only [collectValues, List.drop_succ_cons, List.drop_zero,
        collectLoop]
      rw [if_pos (by simp [hb])]
    simp [hcoll]
  · have hcoll : collectValues none 0 ["-a", t] .optQ = .ok [t] := by
      simp only [collectValues, List.drop_succ_cons, List.drop_zero,
        collectLoop]
      rw [if_neg (by simp [hb])]
      rfl
    simp only [hcoll, if_true]
    rw [if_neg (by simp : ¬ (([t] : List String).length = 0))]
    have hpv : parseValues [t] aOpts "a" =
        .error (.argumentType "a" "boolean" t) := by
      simp only [parseValues, parseValueList, parseValue, coerceValue, aOpts]
      rw [if_neg h1, if_neg h2]
    simp only [aOpts] at hpv
    rw [hpv]

theorem boolAttached_degrades (t : String) (i : Nat) (args : List String) (pmap : JSMap)
    (cursor : Nat)
    (hpre : strStartsWith t "--" = true)
    (heq : indexOfChar t '=' = some 6)
    (hname : strSlice t 2 6 = "flag")
    (h1 : jsToLower (String.mk (unescapeQuotes
      (stripWrapped (strSliceFrom t 7)).toList)) ≠ "true")
    (h2 : jsToLower (String.mk (unescapeQuotes
      (stripWrapped (strSliceFrom t 7)).toList)) ≠ "false") :
    parseArg flagParser.arguments flagParser.positionalArgs t i args
      pmap cursor =
      .ok (objSet pmap "flag" (.scalar (.bool true)), cursor, i) := by
  set w := String.mk (unescapeQuotes (stripWrapped (strSliceFrom t 7)).toList)
    with hw
  simp only [parseArg]
  rw [if_pos hpre]
  simp only [parseLongOption, heq, hname]
  simp only [flagParser, mapGet, eq_self_iff_true, if_true]
  simp only [handleOption, flagOpts, jsOr, Option.getD_some]
  rw [if_neg (by simp : ¬ (("flag" : String) = ""))]
  have hcoll : collectValues (some w) i args .optQ = .ok [w] := rfl
  simp only [hcoll, if_true]
  rw [if_neg (by simp : ¬ (([w] : List String).length = 0))]
  have hpv : parseValues [w]
      { type := ArgType.bool, default := none, nargs := some NargsOption.optQ,
        choices := none, required := false, help := none, metavar := "FLAG",
        dest := "flag", flags := ["--flag"] } "flag" =
      .error (.argumentType "flag" "boolean" w) := by
    simp only [parseValues, parseValueList, parseValue, coerceValue]
    rw [if_neg h1, if_neg h2]
  rw [hpv]

theorem boolZero_true (i : Nat) (args : List String) (pmap : JSMap) (cursor : Nat)
    (hnext : args.drop (i + 1) = [] ∨
      ∃ t rest, args.drop (i + 1) = t :: rest ∧ strStartsWith t "-" = true) :
    parseArg flagParser.arguments flagParser.positionalArgs "--flag" i args
      pmap cursor =
      .ok (objSet pmap "flag" (.scalar (.bool true)), cursor, i) := by
  have hcoll : collectValues none i args .optQ = .ok [] := by
    simp only [collectValues]
    rcases hnext with h | ⟨t, rest, h, hs⟩
    · rw [h]; rfl
    · rw [h]
      simp only [collectLoop]
      rw [if_pos (by simp [hs])]
  simp only [parseArg]
  rw [if_pos (show strStartsWith "--flag" "--" = true from by decide)]
  simp only [parseLongOption]
  rw [show indexOfChar "--flag" '=' = none from by decide]
  simp only [flagParser]
  rw [show strSliceFrom "--flag" 2 = "flag" from by decide]
  simp only [mapGet, eq_self_iff_true, if_true]
  simp only [handleOption, flagOpts, jsOr, Option.getD_some]
  rw [if_neg (by simp : ¬ (("flag" : String) = ""))]
  simp [hcoll]

theorem validateRequiredNamed_ok_iff (l : List (String × ArgumentOptions)) :
    ∀ (pmap : JSMap), validateRequiredNamed l pmap = .ok () ↔
      ∀ p ∈ l, p.2.required = true → objGet pmap (jsOr p.2.dest p.1) ≠ none := by
  induction l with
  | nil => intro pmap; simp [validateRequiredNamed]
  | cons p rest ih =>
    intro pmap
    obtain ⟨name, opt⟩ := p
    simp only [validateRequiredNamed]
    by_cases h : opt.required = true ∧ objGet pmap (jsOr opt.dest name) = none
    · rw [if_pos h]
      simp only [List.mem_cons]
      constructor
      · intro hfalse; exact absurd hfalse (by simp)
      · intro hall
        exact absurd h.2 (hall (name, opt) (Or.inl rfl) h.1)
    · rw [if_neg h]
      rw [ih pmap]
      constructor
      · intro hall q hq hreq
        rcases List.mem_cons.mp hq with rfl | hmem
        · intro hnone
          exact h ⟨hreq, hnone⟩
        · exact hall q hmem hreq
      · intro hall q hq hreq
        exact hall q (List.mem_cons.mpr (Or.inr hq)) hreq

theorem validateRequiredPositional_ok_iff (l : List ArgumentOptions) :
    ∀ (pmap : JSMap), validateRequiredPositional l pmap = .ok () ↔
      ∀ opt ∈ l, opt.required = true →
        objGet pmap (jsOr opt.dest (opt.flags.headD "undefined")) ≠ none := by
  induction l with
  | nil => intro pmap; simp [validateRequiredPositional]
  | cons opt rest ih =>
    intro pmap
    simp only [validateRequiredPositional]
    by_cases h : opt.required = true ∧
        objGet pmap (jsOr opt.dest (opt.flags.headD "undefined")) = none
    · rw [if_pos h]
      simp only [List.mem_cons]
      constructor
      · intro hfalse; exact absurd hfalse (by simp)
      · intro hall
        exact absurd h.2 (hall opt (Or.inl rfl) h.1)
    · rw [if_neg h]
      rw [ih pmap]
      constructor
      · intro hall q hq hreq
        rcases List.mem_cons.mp hq with rfl | hmem
        · intro hnone
          exact h ⟨hreq, hnone⟩
        · exact hall q hmem hreq
      · intro hall q hq hreq
        exact hall q (List.mem_cons.mpr (Or.inr hq)) hreq

theorem validateRequired_ok_iff (argsMap : List (String × ArgumentOptions))
    (positionals : List ArgumentOptions) (pmap : JSMap) :
    validateRequired argsMap positionals pmap = .ok () ↔
      (∀ p ∈ argsMap, p.2.required = true →
        objGet pmap (jsOr p.2.dest p.1) ≠ none) ∧
      (∀ opt ∈ positionals, opt.required = true →
        objGet pmap (jsOr opt.dest (opt.flags.headD "undefined")) ≠ none) := by
  simp only [validateRequired]
  cases h : validateRequiredNamed argsMap pmap with
  | error e =>
    constructor
    · intro hfalse; exact absurd hfalse (by simp)
    · intro ⟨h1, _⟩
      rw [(validateRequiredNamed_ok_iff argsMap pmap).mpr h1] at h
      exact absurd h (by simp)
  | ok u =>
    obtain ⟨⟩ := u
    rw [validateRequiredPositional_ok_iff]
    constructor
    · intro h2
      exact ⟨(validateRequiredNamed_ok_iff argsMap pmap).mp h, h2⟩
    · intro ⟨_, h2⟩; exact h2

theorem validateRequiredNamed_error (l : List (String × ArgumentOptions)) :
    ∀ (pmap : JSMap) (e : ArgError), validateRequiredNamed l pmap = .error e →
      ∃ p ∈ l, p.2.required = true ∧ objGet pmap (jsOr p.2.dest p.1) = none ∧
        e = .missingRequired p.1 := by
  induction l with
  | nil => intro pmap e h; exact absurd h (by simp [validateRequiredNamed])
  | cons p rest ih =>
    intro pmap e h
    obtain ⟨name, opt⟩ := p
    simp only [validateRequiredNamed] at h
    by_cases hc : opt.required = true ∧ objGet pmap (jsOr opt.dest name) = none
    · rw [if_pos hc] at h
      refine ⟨(name, opt), by simp, hc.1, hc.2, ?_⟩
      cases h; rfl
    · rw [if_neg hc] at h
      obtain ⟨q, hq, hr⟩ := ih pmap e h
      exact ⟨q, List.mem_cons.mpr (Or.inr hq), hr⟩

theorem validateRequiredPositional_error (l : List ArgumentOptions) :
    ∀ (pmap : JSMap) (e : ArgError),
      validateRequiredPositional l pmap = .error e →
      ∃ opt ∈ l, opt.required = true ∧
        objGet pmap (jsOr opt.dest (opt.flags.headD "undefined")) = none ∧
        e = .missingRequired (opt.flags.headD "undefined") := by
  induction l with
  | nil => intro pmap e h; exact absurd h (by simp [validateRequiredPositional])
  | cons opt rest ih =>
    intro pmap e h
    simp only [validateRequiredPositional] at h
    by_cases hc : opt.required = true ∧
        objGet pmap (jsOr opt.dest (opt.flags.headD "undefined")) = none
    · rw [if_pos hc] at h
      refine ⟨opt, by simp, hc.1, hc.2, ?_⟩
      cases h; rfl
    · rw [if_neg hc] at h
      obtain ⟨q, hq, hr⟩ := ih pmap e h
      exact ⟨q, List.mem_cons.mpr (Or.inr hq), hr⟩

theorem validateRequired_error (argsMap : List (String × ArgumentOptions))
    (positionals : List ArgumentOptions) (pmap : JSMap) (e : ArgError)
    (h : validateRequired argsMap positionals pmap = .error e) :
    (∃ p ∈ argsMap, p.2.required = true ∧
      objGet pmap (jsOr p.2.dest p.1) = none ∧ e = .missingRequired p.1) ∨
    (∃ opt ∈ positionals, opt.required = true ∧
      objGet pmap (jsOr opt.dest (opt.flags.headD "undefined")) = none ∧
      e = .missingRequired (opt.flags.headD "undefined")) := by
  simp only [validateRequired] at h
  cases hn : validateRequiredNamed argsMap pmap with
  | error e2 =>
    simp only [hn, Except.error.injEq] at h
    subst h
    exact Or.inl (validateRequiredNamed_error argsMap pmap e2 hn)
  | ok u =>
    simp only [hn] at h
    exact Or.inr (validateRequiredPositional_error positionals pmap e h)

theorem addArgument_required_default (st : ParserState) (flags : List String)
    (options : PartialOptions) (d : JSValue)
    (hreq : options.required = some true) (hdef : options.default = some d)
    (hfl : flags ≠ []) :
    addArgument st flags options =
      .error (.parserError
        "Cannot set both required and default for an argument") := by
  obtain ⟨lf, hlf⟩ : ∃ lf, flags.getLast? = some lf := by
    cases h : flags.getLast? with
    | none => exact absurd (List.getLast?_eq_none_iff.mp h) hfl
    | some lf => exact ⟨lf, rfl⟩
  have hv : ∀ (isOpt : Bool),
      validateArgumentOptions
        (buildOptions flags options (stripLeadingDashes lf) isOpt) =
      .error (.parserError
        "Cannot set both required and default for an argument") := by
    intro isOpt
    simp only [buildOptions, hreq, hdef, Option.getD_some]
    split <;> simp [validateArgumentOptions]
  simp only [addArgument, hlf, hv]

theorem parseArgsFromTokens_error_iff (argsMap : List (String × ArgumentOptions))
    (positionals : List ArgumentOptions) (tokens : List String)
    (pmap : JSMap) (cursor : Nat) (e : ArgError)
    (hscan : scanLoop argsMap positionals (tokens.length + 1) tokens 0 [] 0 =
      .ok (pmap, cursor)) :
    parseArgsFromTokens argsMap positionals tokens = .error e ↔
      validateRequired argsMap positionals
        (setDefaults argsMap positionals pmap) = .error e := by
  simp only [parseArgsFromTokens, hscan]
  cases h : validateRequired argsMap positionals
      (setDefaults argsMap positionals pmap) with
  | error e' => simp [h]
  | ok u => simp [h]


theorem mapGet_replaceKey (k : String) (v : ArgumentOptions) :
    ∀ (m : List (String × ArgumentOptions)),
      List.any m (fun p => p.1 = k) = true →
      mapGet (List.map (fun p => if p.1 = k then (k, v) else p) m) k =
        some v := by
  intro m
  induction m with
  | nil => intro h; simp at h
  | cons p rest ih =>
    intro h
    by_cases hk : p.1 = k
    · rw [List.map_cons, if_pos hk]
      simp [mapGet]
    · rw [List.map_cons, if_neg hk]
      rw [show mapGet ((p.1, p.2) :: List.map
            (fun p => if p.1 = k then (k, v) else p) rest) k =
          mapGet (List.map (fun p => if p.1 = k then (k, v) else p) rest) k
        from by simp [mapGet, if_neg (Ne.symm hk)]]
      apply ih
      simp only [List.any_cons, Bool.or_eq_true, decide_eq_true_eq] at h
      rcases h with h1 | h2
      · exact absurd h1 hk
      · exact h2

theorem mapGet_appendKey (k : String) (v : ArgumentOptions) :
    ∀ (m : List (String × ArgumentOptions)),
      List.any m (fun p => p.1 = k) = false →
      mapGet (m ++ [(k, v)]) k = some v := by
  intro m
  induction m with
  | nil => intro _; simp [mapGet]
  | cons p rest ih =>
    intro h
    simp only [List.any_cons, Bool.or_eq_false_iff, decide_eq_false_iff_not]
      at h
    rw [List.cons_append]
    rw [show mapGet ((p.1, p.2) :: (rest ++ [(k, v)])) k =
        mapGet (rest ++ [(k, v)]) k
      from by simp [mapGet, if_neg (Ne.symm h.1)]]
    exact ih h.2

theorem mapGet_mapSet (m : List (String × ArgumentOptions)) (k : String)
    (v : ArgumentOptions) : mapGet (mapSet m k v) k = some v := by
  simp only [mapSet]
  by_cases ha : List.any m (fun p => p.1 = k) = true
  · rw [if_pos ha]
    exact mapGet_replaceKey k v m ha
  · rw [if_neg ha]
    exact mapGet_appendKey k v m (Bool.eq_false_iff.mpr ha)

theorem keys_replaceKey (k : String) (v : ArgumentOptions) :
    ∀ (m : List (String × ArgumentOptions)),
      (List.map (fun p => if p.1 = k then (k, v) else p) m).map Prod.fst =
        m.map Prod.fst := by
  intro m
  induction m with
  | nil => rfl
  | cons p rest ih =>
    by_cases hk : p.1 = k
    · simp only [List.map_cons, if_pos hk, ih]
      simp [hk]
    · simp only [List.map_cons, if_neg hk, ih]

theorem keys_mapSet_of_mem (m : List (String × ArgumentOptions)) (k : String)
    (v : ArgumentOptions) (h : List.any m (fun p => p.1 = k) = true) :
    (mapSet m k v).map Prod.fst = m.map Prod.fst := by
  simp only [mapSet, if_pos h]
  exact keys_replaceKey k v m

theorem addArgument_replace (st : ParserState) (flags : List String)
    (options : PartialOptions) (lf name : String)
    (hlast : flags.getLast? = some lf) (hname : stripLeadingDashes lf = name)
    (hopt : strStartsWith (flags.headD "") "-" = true)
    (hval : validateArgumentOptions (buildOptions flags options name true) =
      .ok ())
    (hmem : List.any st.arguments (fun p => p.1 = name) = true) :
    ∃ st2, addArgument st flags options = .ok st2 ∧
      st2.arguments =
        mapSet st.arguments name (buildOptions flags options name true) ∧
      st2.positionalArgs = st.positionalArgs ∧
      mapGet st2.arguments name =
        some (buildOptions flags options name true) ∧
      st2.arguments.map Prod.fst = st.arguments.map Prod.fst := by
  have h : addArgument st flags options = .ok { st with arguments := mapSet st.arguments name (buildOptions flags options name true) } := by
    simp only [addArgument, hlast, hname, hopt, hval, if_true]
  exact ⟨_, h, rfl, rfl, mapGet_mapSet _ _ _, keys_mapSet_of_mem _ _ _ hmem⟩

/-! The claims. -/

/-- C1: the claim as stated is false on two counts.  With `--nums` of numeric
type and fixed arity 2, the input `--nums 1 2 3` (more than N value tokens)
fails with `UnknownArgument "3"`, not with `InvalidArity`; and with fixed
arity 1 the parsed number is stored as a scalar, not as a one-element
sequence. -/
theorem C1_counterexample :
    parseArgs (numsParser 2) "--nums 1 2 3" =
      .error (.unknownArgument "3") ∧
    ArgError.unknownArgument "3" ≠ .invalidNargsCount "--nums" 2 3 ∧
    parseArgs (numsParser 1) "--nums 5" = .ok [("nums", .scalar (.num 5))] ∧
    JSValue.scalar (.num 5) ≠ .arr [.num 5] :=
  ⟨rfl, by simp, rfl, by simp⟩

/-- C1 (amended): for an optional argument of numeric type and fixed arity
`N`, supplying exactly `N` well-formed numeric tokens stores the `N` numbers
in input order — as a sequence when `N ≥ 2`, as a scalar when `N = 1`;
supplying fewer than `N` tokens with no further input fails with
`InvalidArity`; supplying more than `N` tokens is not an arity error: the
argument consumes exactly `N` and the excess flows to positional handling,
failing with `UnknownArgument` when no positional slot can take it. -/
theorem C1_fixed_arity :
    (∀ (N : Nat) (vs : List String) (ns : List Int),
      vs.length = N → 2 ≤ N → vs.map jsNumber = ns.map some →
      parseArgsFromTokens (numsParser N).arguments
        (numsParser N).positionalArgs ("--nums" :: vs) =
        .ok [("nums", .arr (ns.map .num))]) ∧
    (∀ (N : Nat) (vs : List String), vs.length < N →
      parseArgsFromTokens (numsParser N).arguments
        (numsParser N).positionalArgs ("--nums" :: vs) =
        .error (.invalidNargsCount "--nums" N vs.length)) ∧
    parseArgs (numsParser 2) "--nums 1 2 3" =
      .error (.unknownArgument "3") ∧
    parseArgs (numsParser 1) "--nums 5" = .ok [("nums", .scalar (.num 5))] ∧
    parseArgs (numsParser 2) "--nums 10 20" =
      .ok [("nums", .arr [.num 10, .num 20])] :=
  ⟨fun N vs ns h1 h2 h3 => numsParser_exact N vs ns h1 h2 h3,
   fun N vs h => numsParser_fewer N vs h, rfl, rfl, rfl⟩

/-- C1 witness: the general conjuncts of `C1_fixed_arity` evaluated at
concrete inputs. -/
theorem C1_witness :
    parseArgsFromTokens (numsParser 2).arguments (numsParser 2).positionalArgs
      ["--nums", "10", "20"] = .ok [("nums", .arr [.num 10, .num 20])] ∧
    parseArgsFromTokens (numsParser 3).arguments (numsParser 3).positionalArgs
      ["--nums", "7"] = .error (.invalidNargsCount "--nums" 3 1) :=
  ⟨C1_fixed_arity.1 2 ["10", "20"] [10, 20] (by decide) (by decide)
     (by decide),
   C1_fixed_arity.2.1 3 ["7"] (by decide)⟩

/-- C2: the claim's concatenation clause is false — `--name="John Doe"` does
tokenize as a single token, but the quote characters are NOT stripped by the
tokenizer (they are only stripped when the whole token is quote-wrapped); and
the escape processing is not limited to quotes of the same kind: `\'` inside a
double-quoted token is also unescaped. -/
theorem C2_counterexample :
    tokenize "--name=\"John Doe\"" = ["--name=\"John Doe\""] ∧
    ("--name=\"John Doe\"" : String) ≠ "--name=John Doe" ∧
    tokenize "\"a\\'b\"" = ["a'b"] ∧
    ("a'b" : String) ≠ "a\\'b" :=
  ⟨rfl, by decide, rfl, by decide⟩

/-- C2 (amended): the tokenizer is a pure total function; tokens are
whitespace-separated; when an entire token is quote-wrapped the outer quotes
are stripped and every backslash-quote pair (of either kind) is unescaped;
quoted and unquoted runs concatenated without whitespace form one single token
whose quote characters are retained at tokenize time — `--name="John Doe"`
tokenizes as the single token `--name="John Doe"`, and the quotes are stripped
later by the long-option `=`-value handler, so a full parse still yields
`name = John Doe`. -/
theorem C2_tokenize :
    tokenize " a  b " = ["a", "b"] ∧
    tokenize "\"a\\\"b\" 'c d'" = ["a\"b", "c d"] ∧
    tokenize "\"a\\'b\"" = ["a'b"] ∧
    tokenize "--name=\"John Doe\"" = ["--name=\"John Doe\""] ∧
    parseArgs nameParser "--name=\"John Doe\"" =
      .ok [("name", .scalar (.str "John Doe"))] ∧
    parseArgs nameParser "--name \"John Doe\"" =
      .ok [("name", .scalar (.str "John Doe"))] :=
  ⟨rfl, rfl, rfl, rfl, rfl, rfl⟩

/-- C3: the claim is false at k = 1: an optional one-or-more argument that
collects exactly one value stores it as a scalar, not as a sequence of
length 1 (`parseValues` collapses single-element results). -/
theorem C3_counterexample :
    parseArgs plusParser "--names one" =
      .ok [("names", .scalar (.str "one"))] ∧
    JSValue.scalar (.str "one") ≠ .arr [.str "one"] :=
  ⟨rfl, by simp⟩

/-- C3 (amended): for an optional one-or-more argument, collecting zero value
tokens fails with `InvalidArity` ("at least one"); collecting k ≥ 2 values
stores a sequence of length k in input order; collecting exactly one value
stores that value as a scalar.  A positional one-or-more slot accumulates a
sequence even for a single value. -/
theorem C3_one_or_more :
    (∀ (vs : List String), (∀ v ∈ vs, strStartsWith v "-" = false) →
      2 ≤ vs.length →
      parseArgsFromTokens plusParser.arguments plusParser.positionalArgs
        ("--names" :: vs) = .ok [("names", .arr (vs.map .str))]) ∧
    parseArgs plusParser "--names" =
      .error (.invalidNargsAtLeastOne "--names" 0) ∧
    parseArgs plusParser "--names one" =
      .ok [("names", .scalar (.str "one"))] ∧
    parseArgs filesPosParser "file1.txt" =
      .ok [("files", .arr [.str "file1.txt"])] :=
  ⟨fun vs h1 h2 => plusParser_all vs h1 h2, rfl, rfl, rfl⟩

/-- C3 witness: the general conjunct of `C3_one_or_more` at a concrete
input. -/
theorem C3_witness :
    parseArgsFromTokens plusParser.arguments plusParser.positionalArgs
      ["--names", "x", "y"] = .ok [("names", .arr [.str "x", .str "y"])] :=
  C3_one_or_more.1 ["x", "y"] (by decide) (by decide)

/-- C4: the "boolean-typed short flags never consume the trailing token"
clause is false: with `-a` boolean and a required positional `pos`, parsing
`-a true` consumes the token `true` as the boolean's value (so `pos` stays
unset and the parse fails with `MissingRequiredArgument`), whereas the claim
predicts `true` to be left for the positional. -/
theorem C4_counterexample :
    parseArgs abPosParser "-a true" = .error (.missingRequired "pos") ∧
    (Except.error (ArgError.missingRequired "pos") : Except ArgError JSMap) ≠
      .ok [("a", .scalar (.bool true)), ("pos", .scalar (.str "true"))] :=
  ⟨rfl, by simp⟩

/-- C4 (amended): in a bundled short-flag token each character after the dash
is resolved independently against the registered definitions, a character with
no matching definition failing with `UnknownArgument` naming `-<char>`; a
boolean-typed short flag does not consume a trailing token that fails boolean
coercion (the coercion error degrades to presence-only `true`), but it does
consume a trailing case-insensitive `true`/`false`; with `-a` boolean and `-b`
string of arity 1, `-ab value` yields `{ a: true, b: "value" }`. -/
theorem C4_bundled :
    parseArgs abParser "-ab value" =
      .ok [("a", .scalar (.bool true)), ("b", .scalar (.str "value"))] ∧
    parseArgs abParser "-ac" = .error (.unknownArgument "-c") ∧
    (∀ (t : String) (pmap : JSMap) (cursor : Nat),
      jsToLower t ≠ "true" → jsToLower t ≠ "false" →
      parseArg abParser.arguments abParser.positionalArgs "-a" 0 ["-a", t]
        pmap cursor =
        .ok (objSet pmap "a" (.scalar (.bool true)), cursor, 0)) ∧
    parseArgs abParser "-a true" = .ok [("a", .scalar (.bool true))] :=
  ⟨rfl, rfl, fun t pmap cursor h1 h2 =>
    shortBool_no_consume t pmap cursor h1 h2, rfl⟩

/-- C4 witness: the general non-consumption conjunct of `C4_bundled` at a
concrete trailing token. -/
theorem C4_witness :
    parseArg abParser.arguments abParser.positionalArgs "-a" 0
      ["-a", "value"] [] 0 =
      .ok (objSet [] "a" (.scalar (.bool true)), 0, 0) :=
  C4_bundled.2.2.1 "value" [] 0 (by decide) (by decide)

/-- C5: after coercion a value is compared against the declared choices by
string representation; a match is replaced by the matching declared choice
instance, no match fails with `InvalidChoice` carrying the argument name, the
rejected value and the full allowed set; with choices `[8080, 8081]` and
numeric type, `--port 8080` yields `{ port: 8080 }` and `--port 9999` fails
with `InvalidChoice`.  (The `--value true` conjunct shows the
instance-replacement: a string-typed argument stores the boolean choice
instance `true`.) -/
theorem C5_choices :
    (∀ (option : ArgumentOptions) (name v : String) (parsed : Scalar)
        (cs : List Scalar),
      option.choices = some cs → coerceValue option.type v name = .ok parsed →
      parseValue v option name =
        (match cs.find? (fun c => jsToString c = jsToString parsed) with
         | some c => .ok c
         | none => .error (.invalidChoice name parsed cs))) ∧
    parseArgs portParser "--port 8080" =
      .ok [("port", .scalar (.num 8080))] ∧
    parseArgs portParser "--port 9999" =
      .error (.invalidChoice "port" (.num 9999) [.num 8080, .num 8081]) ∧
    parseArgs choiceParser "--value true" =
      .ok [("value", .scalar (.bool true))] :=
  ⟨fun option name v parsed cs h1 h2 =>
    parseValue_choices_spec option name v parsed cs h1 h2, rfl, rfl, rfl⟩

/-- C5 witness: the general conjunct of `C5_choices` evaluated at the
claim's concrete ports. -/
theorem C5_witness :
    parseValue "8080" portOpts "port" = .ok (.num 8080) ∧
    parseValue "9999" portOpts "port" =
      .error (.invalidChoice "port" (.num 9999) [.num 8080, .num 8081]) :=
  ⟨C5_choices.1 portOpts "port" "8080" (.num 8080) [.num 8080, .num 8081]
     rfl rfl,
   C5_choices.1 portOpts "port" "9999" (.num 9999) [.num 8080, .num 8081]
     rfl rfl⟩

/-- C6: `parseArgs` resets the per-call fields (`parsedArgs`,
`currentPositionalIndex`) at entry, so its result is a function of the
registry and the input string only: any values left in the per-call fields by
a previous call leave the result unchanged, hence sequentially repeated calls
with the same input yield equal result mappings. -/
theorem C6_idempotent :
    (∀ (st : ParserState) (s : String) (pm : JSMap) (cur : Nat),
      parseArgs { st with parsedArgs := pm, currentPositionalIndex := cur } s =
        parseArgs st s) ∧
    (∀ (st : ParserState) (s : String),
      parseArgs st s =
        parseArgsFromTokens st.arguments st.positionalArgs (tokenize s)) :=
  ⟨fun st s pm cur => parseArgs_ignores_callLocal st s pm cur,
   fun _ _ => rfl⟩

/-- C7: the required check succeeds exactly when every definition with
`required = true` (named or positional) has its destination set; when it
fails, the error is `MissingRequiredArgument` naming the offender's canonical
name (named) or first flag (positional); registration rejects `required =
true` combined with a default; and, given a successful scan, the whole parse
fails with an error exactly when the required check after defaulting fails
with that error. -/
theorem C7_required :
    (∀ (argsMap : List (String × ArgumentOptions))
        (positionals : List ArgumentOptions) (pmap : JSMap),
      validateRequired argsMap positionals pmap = .ok () ↔
        (∀ p ∈ argsMap, p.2.required = true →
          objGet pmap (jsOr p.2.dest p.1) ≠ none) ∧
        (∀ opt ∈ positionals, opt.required = true →
          objGet pmap (jsOr opt.dest (opt.flags.headD "undefined")) ≠ none)) ∧
    (∀ (argsMap : List (String × ArgumentOptions))
        (positionals : List ArgumentOptions) (pmap : JSMap) (e : ArgError),
      validateRequired argsMap positionals pmap = .error e →
        (∃ p ∈ argsMap, p.2.required = true ∧
          objGet pmap (jsOr p.2.dest p.1) = none ∧
          e = .missingRequired p.1) ∨
        (∃ opt ∈ positionals, opt.required = true ∧
          objGet pmap (jsOr opt.dest (opt.flags.headD "undefined")) = none ∧
          e = .missingRequired (opt.flags.headD "undefined"))) ∧
    (∀ (st : ParserState) (flags : List String) (options : PartialOptions)
        (d : JSValue),
      options.required = some true → options.default = some d → flags ≠ [] →
      addArgument st flags options =
        .error (.parserError
          "Cannot set both required and default for an argument")) ∧
    (∀ (argsMap : List (String × ArgumentOptions))
        (positionals : List ArgumentOptions) (tokens : List String)
        (pmap : JSMap) (cursor : Nat) (e : ArgError),
      scanLoop argsMap positionals (tokens.length + 1) tokens 0 [] 0 =
        .ok (pmap, cursor) →
      (parseArgsFromTokens argsMap positionals tokens = .error e ↔
        validateRequired argsMap positionals
          (setDefaults argsMap positionals pmap) = .error e)) :=
  ⟨fun a p m => validateRequired_ok_iff a p m,
   fun a p m e h => validateRequired_error a p m e h,
   fun st flags options d h1 h2 h3 =>
     addArgument_required_default st flags options d h1 h2 h3,
   fun a p t m c e h => parseArgsFromTokens_error_iff a p t m c e h⟩

/-- C7 witness: the registration-rejection conjunct of `C7_required` at a
concrete definition. -/
theorem C7_witness :
    addArgument {} ["--x"]
      { required := some true, default := some (.scalar (.num 1)) } =
      .error (.parserError
        "Cannot set both required and default for an argument") :=
  C7_required.2.2.1 {} ["--x"]
    { required := some true, default := some (.scalar (.num 1)) }
    (.scalar (.num 1)) rfl rfl (by decide)

/-- C8: a boolean-typed optional argument given an `=`-attached value that
does not coerce (not a case-insensitive true/false after quote
stripping/unescaping) raises no error and stores presence-only `true` with
the token index unchanged; a boolean flag with zero collected values likewise
yields `true` directly. -/
theorem C8_boolean_swallow :
    (∀ (t : String) (i : Nat) (args : List String) (pmap : JSMap)
        (cursor : Nat),
      strStartsWith t "--" = true →
      indexOfChar t '=' = some 6 →
      strSlice t 2 6 = "flag" →
      jsToLower (String.mk (unescapeQuotes
        (stripWrapped (strSliceFrom t 7)).toList)) ≠ "true" →
      jsToLower (String.mk (unescapeQuotes
        (stripWrapped (strSliceFrom t 7)).toList)) ≠ "false" →
      parseArg flagParser.arguments flagParser.positionalArgs t i args
        pmap cursor =
        .ok (objSet pmap "flag" (.scalar (.bool true)), cursor, i)) ∧
    (∀ (i : Nat) (args : List String) (pmap : JSMap) (cursor : Nat),
      (args.drop (i + 1) = [] ∨
        ∃ t rest, args.drop (i + 1) = t :: rest ∧
          strStartsWith t "-" = true) →
      parseArg flagParser.arguments flagParser.positionalArgs "--flag" i args
        pmap cursor =
        .ok (objSet pmap "flag" (.scalar (.bool true)), cursor, i)) ∧
    parseArgs flagParser "--flag=xyz" =
      .ok [("flag", .scalar (.bool true))] ∧
    parseArgs flagParser "--flag" = .ok [("flag", .scalar (.bool true))] :=
  ⟨fun t i args pmap cursor h1 h2 h3 h4 h5 =>
    boolAttached_degrades t i args pmap cursor h1 h2 h3 h4 h5,
   fun i args pmap cursor h => boolZero_true i args pmap cursor h, rfl, rfl⟩

/-- C8 witness: the general conjuncts of `C8_boolean_swallow` at concrete
inputs. -/
theorem C8_witness :
    parseArg flagParser.arguments flagParser.positionalArgs "--flag=xyz" 0
      ["--flag=xyz"] [] 0 =
      .ok (objSet [] "flag" (.scalar (.bool true)), 0, 0) ∧
    parseArg flagParser.arguments flagParser.positionalArgs "--flag" 0
      ["--flag"] [] 0 =
      .ok (objSet [] "flag" (.scalar (.bool true)), 0, 0) :=
  ⟨C8_boolean_swallow.1 "--flag=xyz" 0 ["--flag=xyz"] [] 0 (by decide)
     (by decide) (by decide) (by decide) (by decide),
   C8_boolean_swallow.2.1 0 ["--flag"] [] 0 (Or.inl (by decide))⟩

/-- C9: the bare token `-` dispatches to the short-option handler, whose
per-character loop runs over the empty character list, so the token is
silently skipped: no error, no destination written, the index unchanged —
and parsing continues with the remaining tokens. -/
theorem C9_bare_dash :
    (∀ (argsMap : List (String × ArgumentOptions))
        (positionals : List ArgumentOptions) (i : Nat) (args : List String)
        (pmap : JSMap) (cursor : Nat),
      parseArg argsMap positionals "-" i args pmap cursor =
        .ok (pmap, cursor, i)) ∧
    parseArgs posParser "- hello" = .ok [("pos", .scalar (.str "hello"))] :=
  ⟨fun a p i ar pm c => parseArg_bareDash a p i ar pm c, rfl⟩

/-- C10: registering an optional argument whose canonical name (last flag
with leading dashes stripped) collides with an already-registered key raises
no error and replaces the definition in place: the lookup now returns the
later definition, the key set (and hence insertion order) is unchanged, and
the positional list is untouched — so every subsequent parse sees only the
later definition. -/
theorem C10_replace (st : ParserState) (flags : List String)
    (options : PartialOptions) (lf name : String)
    (hlast : flags.getLast? = some lf) (hname : stripLeadingDashes lf = name)
    (hopt : strStartsWith (flags.headD "") "-" = true)
    (hval : validateArgumentOptions (buildOptions flags options name true) =
      .ok ())
    (hmem : List.any st.arguments (fun p => p.1 = name) = true) :
    ∃ st2, addArgument st flags options = .ok st2 ∧
      st2.arguments =
        mapSet st.arguments name (buildOptions flags options name true) ∧
      st2.positionalArgs = st.positionalArgs ∧
      mapGet st2.arguments name =
        some (buildOptions flags options name true) ∧
      st2.arguments.map Prod.fst = st.arguments.map Prod.fst :=
  addArgument_replace st flags options lf name hlast hname hopt hval hmem

/-- C10 witness: re-registering `--name` with a different type on a parser
that already has a `name` entry. -/
theorem C10_witness :
    ∃ st2, addArgument nameParser ["--name"] { type := some .num } =
        .ok st2 ∧
      st2.arguments = mapSet nameParser.arguments "name"
        (buildOptions ["--name"] { type := some .num } "name" true) ∧
      st2.positionalArgs = nameParser.positionalArgs ∧
      mapGet st2.arguments "name" =
        some (buildOptions ["--name"] { type := some .num } "name" true) ∧
      st2.arguments.map Prod.fst = nameParser.arguments.map Prod.fst :=
  C10_replace nameParser ["--name"] { type := some .num } "--name" "name"
    rfl rfl (by decide) rfl (by decide)
